import Mathlib

/-!
# Verification development for the pipeline CLI access layer

Shallow embedding of `pkg/pipelinerun/pipelinerun.go` and of the name step of
`pkg/cmd/pipelineresource/create.go`.

Conventions of the embedding

* A Go result pair `(*T, error)` is an `Except error T`.
* Code that is imported by these files but is not part of them (the `actions`
  gateway, the unstructured converter, the version conversions, the age
  formatter, the start-time sort, the status gatherer, the prompt) is taken as
  a parameter: the cluster-facing calls are the fields of `Clients`, the
  library calls are the fields of `Deps`.
* An operation that talks to a collaborator returns a `Run`: the ordered list
  of the calls it made, and its result.
* Go `int` is modelled by `Int`, `len` by `Nat`. A Go string that is only
  passed on or concatenated is modelled by `String`; the strings that
  `json.Marshal` re-encodes are `GoString`s, sequences of bytes that need not
  be valid UTF-8.
* Values of pointer types whose identity matters carry their address: an
  error built by `errors.New` or `fmt.Errorf` has the address of its
  allocation, which a function that allocates takes as the parameter `alloc`
  (the next free address); the executions that `Get` and
  `populatePipelineRunTaskStatuses` pass around live in a `Memory`.
-/

/-! ## Data model -/

/-- Addresses of allocated values. -/
abbrev Addr := Nat

/-- Go `error` values: `errorString` is the pointer to an `errorString` that
`errors.New` and `fmt.Errorf` allocate, given by its address and its text, so
that two such errors are equal only when they are the same allocation;
`status` is an API status error of a collaborator, carrying a reason and a
message. -/
inductive error where
  | errorString (addr : Addr) (s : String)
  | status (reason : String) (message : String)
  deriving DecidableEq, Repr

/-- The `Error()` method of the `error` interface. -/
def error.Error : error → String
  | .errorString _ s => s
  | .status _ message => message

/-- The call `errors.New(text)`, which allocates a new error value on every
call; `alloc` is the address the allocation gets. -/
def errors.New (alloc : Addr) (text : String) : error := .errorString alloc text

/-- Field-path/value pairs standing for the fields of a typed object that the
embedded code never reads or writes. -/
abbrev Fields := List (String × String)

/-- Timestamps (`metav1.Time`), as seconds. -/
abbrev Time := Int

/-- The injected clock (`clockwork.Clock`). -/
structure Clock where
  Now : Time
  deriving DecidableEq, Repr

/-- The coordinate type `schema.GroupVersionResource`; the zero value of a
field is the empty string. -/
structure GroupVersionResource where
  Group : String := ""
  Version : String := ""
  Resource : String := ""
  deriving DecidableEq, Repr

/-- The options of a list call (`metav1.ListOptions`). -/
structure ListOptions where
  LabelSelector : String := ""
  FieldSelector : String := ""
  deriving DecidableEq, Repr

/-- The options of a get call (`metav1.GetOptions`). -/
structure GetOptions where
  ResourceVersion : String := ""
  deriving DecidableEq, Repr

/-- The options of a patch call (`metav1.PatchOptions`). -/
structure PatchOptions where
  DryRun : List String := []
  FieldManager : String := ""
  deriving DecidableEq, Repr

/-- The options of a create call (`metav1.CreateOptions`). -/
structure CreateOptions where
  DryRun : List String := []
  FieldManager : String := ""
  deriving DecidableEq, Repr

/-- The type fields of an object (`metav1.TypeMeta`). -/
structure TypeMeta where
  Kind : String := ""
  APIVersion : String := ""
  deriving DecidableEq, Repr

/-- The object metadata (`metav1.ObjectMeta`). -/
structure ObjectMeta where
  Name : String := ""
  Namespace : String := ""
  ResourceVersion : String := ""
  CreationTimestamp : Time := 0
  deriving DecidableEq, Repr

/-- The untyped tree of the wire form. -/
inductive JSON where
  | null
  | bool (b : Bool)
  | num (n : Int)
  | str (s : String)
  | arr (items : List JSON)
  | obj (members : List (String × JSON))

/-- A Go string: a sequence of bytes (numbers below 256), which need not be
valid UTF-8. -/
abbrev GoString := List Nat

/-- The UTF-8 encoding of one code point. -/
def utf8EncodeRune (n : Nat) : List Nat :=
  if n < 0x80 then [n]
  else if n < 0x800 then [0xC0 + n / 64, 0x80 + n % 64]
  else if n < 0x10000 then [0xE0 + n / 4096, 0x80 + n / 64 % 64, 0x80 + n % 64]
  else [0xF0 + n / 262144, 0x80 + n / 4096 % 64, 0x80 + n / 64 % 64, 0x80 + n % 64]

/-- The Go string whose bytes are the UTF-8 encoding of a text; a Go string
literal is the `utf8Bytes` of its text. -/
def utf8Bytes (s : String) : GoString :=
  s.data.flatMap fun ch => utf8EncodeRune ch.toNat

/-- The replacement character `utf8.RuneError`, U+FFFD. -/
def RuneError : Char := Char.ofNat 0xFFFD

/-- The range the second byte of a sequence must lie in, by its first byte
(the accept ranges of package `utf8`). -/
def acceptRange (b0 : Nat) : Nat × Nat :=
  if b0 = 0xE0 then (0xA0, 0xBF)
  else if b0 = 0xED then (0x80, 0x9F)
  else if b0 = 0xF0 then (0x90, 0xBF)
  else if b0 = 0xF4 then (0x80, 0x8F)
  else (0x80, 0xBF)

/-- The function `utf8.DecodeRuneInString`: the first code point of a byte
sequence and its width; an invalid or truncated encoding gives `RuneError`
with width 1, the empty sequence gives `RuneError` with width 0. -/
def DecodeRune : List Nat → Char × Nat
  | [] => (RuneError, 0)
  | b0 :: rest =>
    if b0 < 0x80 then (Char.ofNat b0, 1)
    else if 0xC2 ≤ b0 ∧ b0 ≤ 0xDF then
      match rest with
      | b1 :: _ =>
        if 0x80 ≤ b1 ∧ b1 ≤ 0xBF then (Char.ofNat ((b0 - 0xC0) * 64 + (b1 - 0x80)), 2)
        else (RuneError, 1)
      | _ => (RuneError, 1)
    else if 0xE0 ≤ b0 ∧ b0 ≤ 0xEF then
      match rest with
      | b1 :: b2 :: _ =>
        if (acceptRange b0).1 ≤ b1 ∧ b1 ≤ (acceptRange b0).2 ∧ 0x80 ≤ b2 ∧ b2 ≤ 0xBF then
          (Char.ofNat (((b0 - 0xE0) * 64 + (b1 - 0x80)) * 64 + (b2 - 0x80)), 3)
        else (RuneError, 1)
      | _ => (RuneError, 1)
    else if 0xF0 ≤ b0 ∧ b0 ≤ 0xF4 then
      match rest with
      | b1 :: b2 :: b3 :: _ =>
        if (acceptRange b0).1 ≤ b1 ∧ b1 ≤ (acceptRange b0).2 ∧ 0x80 ≤ b2 ∧ b2 ≤ 0xBF ∧
            0x80 ≤ b3 ∧ b3 ≤ 0xBF then
          (Char.ofNat
            ((((b0 - 0xF0) * 64 + (b1 - 0x80)) * 64 + (b2 - 0x80)) * 64 + (b3 - 0x80)), 4)
        else (RuneError, 1)
      | _ => (RuneError, 1)
    else (RuneError, 1)

/-- The loop by which `json.Marshal` reads a Go string: it decodes one code
point after the other and writes U+FFFD for every byte that starts no valid
encoding. Every step consumes at least one byte, so `fuel` equal to the number
of bytes is enough. -/
def appendRunes : Nat → List Nat → List Char
  | 0, _ => []
  | _, [] => []
  | fuel + 1, b0 :: rest =>
    (DecodeRune (b0 :: rest)).1 ::
      appendRunes fuel ((b0 :: rest).drop (DecodeRune (b0 :: rest)).2)

/-- The text of the JSON string that `json.Marshal` writes for a Go string:
the escapes it uses in the bytes of the document denote this text. -/
def jsonString (s : GoString) : String := String.mk (appendRunes s.length s)

/-- The schema-agnostic object (`unstructured.Unstructured`). -/
structure Unstructured where
  Object : List (String × JSON)

/-- The method `UnstructuredContent`. -/
def Unstructured.UnstructuredContent (u : Unstructured) : List (String × JSON) := u.Object

/-- The value of a top-level string member of an unstructured content, the
empty string when it is absent or not a string. -/
def nestedString (content : List (String × JSON)) (key : String) : String :=
  match content.lookup key with
  | some (.str s) => s
  | _ => ""

/-- The method `GetKind`. -/
def Unstructured.GetKind (u : Unstructured) : String := nestedString u.Object "kind"

/-- The method `GetAPIVersion`. -/
def Unstructured.GetAPIVersion (u : Unstructured) : String := nestedString u.Object "apiVersion"

namespace v1

/-- The status of a `v1` execution: the start time is a nullable pointer. -/
structure PipelineRunStatus where
  StartTime : Option Time := none
  Other : Fields := []
  deriving DecidableEq, Repr

/-- The `v1` shape of an execution. -/
structure PipelineRun extends TypeMeta, ObjectMeta where
  Spec : Fields := []
  Status : PipelineRunStatus := {}
  deriving DecidableEq, Repr

/-- The `v1` list kind. -/
structure PipelineRunList where
  Items : List PipelineRun := []
  deriving DecidableEq, Repr

end v1

namespace v1beta1

/-- The status of a `v1beta1` execution, with the two child-status maps keyed
by child name. -/
structure PipelineRunStatus where
  StartTime : Option Time := none
  TaskRuns : List (String × Fields) := []
  Runs : List (String × Fields) := []
  Other : Fields := []
  deriving DecidableEq, Repr

/-- The `v1beta1` shape of an execution. -/
structure PipelineRun extends TypeMeta, ObjectMeta where
  Spec : Fields := []
  Status : PipelineRunStatus := {}
  deriving DecidableEq, Repr

end v1beta1

/-- The library code the package imports: the age formatter
(`formatted.Age`), the in-place start-time sort (`prsort.SortByStartTime`),
the unstructured converter for both shapes and the two version conversions. -/
structure Deps where
  Age : Option Time → Clock → String
  SortByStartTime : List v1.PipelineRun → List v1.PipelineRun
  ToUnstructuredV1 : v1.PipelineRun → List (String × JSON)
  ToUnstructuredV1beta1 : v1beta1.PipelineRun → List (String × JSON)
  FromUnstructuredV1 : List (String × JSON) → Except error v1.PipelineRun
  FromUnstructuredV1beta1 : List (String × JSON) → Except error v1beta1.PipelineRun
  ConvertTo : v1beta1.PipelineRun → Except error v1.PipelineRun
  ConvertFrom : v1.PipelineRun → Except error v1beta1.PipelineRun

/-- The cluster as the package sees it through `cli.Clients`: what each
gateway call of the `actions` package, discovery and the status gatherer
answer. -/
structure Clients where
  GetGroupVersionResource : GroupVersionResource → Except error GroupVersionResource
  ListV1 : GroupVersionResource → ListOptions → String → Except error v1.PipelineRunList
  Get : GroupVersionResource → String → String → GetOptions → Except error Unstructured
  Patch : GroupVersionResource → String → JSON → PatchOptions → String → Except error v1.PipelineRun
  Create : GroupVersionResource → Unstructured → String → CreateOptions → Except error Unstructured
  GetFullPipelineTaskStatuses : String → v1beta1.PipelineRun →
    Except error (List (String × Fields) × List (String × Fields))

namespace pipelinerun

/-- The package variable `pipelineRunGroupResource`. -/
def pipelineRunGroupResource : GroupVersionResource :=
  { Group := "tekton.dev", Resource := "pipelineruns" }

/-- The package variable `taskrunGroupResource`. -/
def taskrunGroupResource : GroupVersionResource :=
  { Group := "tekton.dev", Resource := "taskruns" }

/-- The display line appended for one run in `GetAllPipelineRuns`. -/
def displayLine (d : Deps) (time : Clock) (run : v1.PipelineRun) : String :=
  run.Name ++ " started " ++ d.Age run.Status.StartTime time

/-- The `for i, run := range pipelineruns.Items` loop of `GetAllPipelineRuns`:
`i` is the index of the head of the remaining items, `ret` the slice built so
far. -/
def rangeItems (d : Deps) (time : Clock) (limit : Int) :
    List v1.PipelineRun → Nat → List String → List String
  | [], _, ret => ret
  | run :: rest, i, ret =>
    rangeItems d time limit rest (i + 1)
      (if (i : Int) < limit then ret ++ [displayLine d time run] else ret)

/-- The function `GetAllPipelineRuns`; `alloc` is the address of the error
that `fmt.Errorf` allocates when the listing fails. -/
def GetAllPipelineRuns (d : Deps) (gr : GroupVersionResource) (opts : ListOptions)
    (c : Clients) (ns : String) (limit : Int) (time : Clock) (alloc : Addr) :
    Except error (List String) :=
  match c.ListV1 gr opts ns with
  | .error err =>
    .error (.errorString alloc
      ("failed to list PipelineRuns from namespace " ++ ns ++ ": " ++ err.Error))
  | .ok pipelineruns =>
    let runslen := pipelineruns.Items.length
    let limit := if limit > (runslen : Int) then (runslen : Int) else limit
    let items := if runslen > 1 then d.SortByStartTime pipelineruns.Items else pipelineruns.Items
    .ok (rangeItems d time limit items 0 [])

end pipelinerun

/-! ## Calls to collaborators -/

/-- One call made to a collaborator, with its arguments. -/
inductive Call where
  | discovery (gr : GroupVersionResource)
  | get (gr : GroupVersionResource) (name : String) (ns : String) (opts : GetOptions)
  | patch (gr : GroupVersionResource) (name : String) (data : JSON) (opts : PatchOptions)
      (ns : String)
  | create (gr : GroupVersionResource) (object : Unstructured) (ns : String)
      (opts : CreateOptions)
  | convertTo (pr : v1beta1.PipelineRun)
  | convertFrom (pr : v1.PipelineRun)
  | statuses (ns : String) (pr : v1beta1.PipelineRun)
  | stderr (text : String)

/-- Whether a call is one of the two version conversions. -/
def Call.isConversion : Call → Bool
  | .convertTo _ => true
  | .convertFrom _ => true
  | _ => false

/-- An operation run to its end: the calls it made, in order, and what it
returned. -/
structure Run (α : Type) where
  calls : List Call
  result : Except error α

/-- Returning a value without calling anything. -/
def Run.pure {α : Type} (a : α) : Run α := ⟨[], .ok a⟩

/-- The early exit `return nil, err`. -/
def Run.fail {α : Type} (err : error) : Run α := ⟨[], .error err⟩

/-- Sequencing: the second part runs only when the first returned no error. -/
def Run.bind {α β : Type} (m : Run α) (f : α → Run β) : Run β :=
  match m.result with
  | .error err => ⟨m.calls, .error err⟩
  | .ok a => ⟨m.calls ++ (f a).calls, (f a).result⟩

instance : Monad Run where
  pure := Run.pure
  bind := Run.bind

/-- A call to a collaborator that answers `answer`. -/
def Run.call {α : Type} (ev : Call) (answer : Except error α) : Run α := ⟨[ev], answer⟩

/-- The objects handed to the create gateway, in order. -/
def sentObjects : List Call → List Unstructured
  | [] => []
  | .create _ object _ _ :: rest => object :: sentObjects rest
  | _ :: rest => sentObjects rest

/-- The patch bodies handed to the patch gateway, in order. -/
def patchBodies : List Call → List JSON
  | [] => []
  | .patch _ _ data _ _ :: rest => data :: patchBodies rest
  | _ :: rest => patchBodies rest

/-- The executions handed to the status gatherer, in order. -/
def enriched : List Call → List v1beta1.PipelineRun
  | [] => []
  | .statuses _ pr :: rest => pr :: enriched rest
  | _ :: rest => enriched rest

/-- The cells that hold `v1beta1` executions; the address of a cell is its
index, and a new cell gets the next free address. -/
structure Memory where
  cells : List v1beta1.PipelineRun
  deriving DecidableEq, Repr

/-- The next free address. -/
def Memory.next (m : Memory) : Addr := m.cells.length

/-- The content of the cell at an address, when it is allocated. -/
def Memory.read (m : Memory) (a : Addr) : Option v1beta1.PipelineRun := m.cells[a]?

/-- The allocation of a new cell, at the address `m.next`, holding `v`. -/
def Memory.alloc (m : Memory) (v : v1beta1.PipelineRun) : Memory := ⟨m.cells ++ [v]⟩

/-- An assignment to fields of the execution at an address: the cell gets
`f` of its content, every other cell is left as it is. -/
def Memory.modify (m : Memory) (a : Addr) (f : v1beta1.PipelineRun → v1beta1.PipelineRun) :
    Memory :=
  match m.cells[a]? with
  | some v => ⟨m.cells.set a (f v)⟩
  | none => m

namespace actions

/-- The call `actions.GetGroupVersionResource(gr, c.Tekton.Discovery())`. -/
def GetGroupVersionResource (c : Clients) (gr : GroupVersionResource) :
    Run GroupVersionResource :=
  Run.call (.discovery gr) (c.GetGroupVersionResource gr)

/-- The call `actions.Get(gr, c.Dynamic, c.Tekton.Discovery(), name, ns, opts)`. -/
def Get (c : Clients) (gr : GroupVersionResource) (name ns : String) (opts : GetOptions) :
    Run Unstructured :=
  Run.call (.get gr name ns opts) (c.Get gr name ns opts)

/-- The call `actions.Patch(gr, c, name, data, opts, ns, &obj)`. -/
def Patch (c : Clients) (gr : GroupVersionResource) (name : String) (data : JSON)
    (opts : PatchOptions) (ns : String) : Run v1.PipelineRun :=
  Run.call (.patch gr name data opts ns) (c.Patch gr name data opts ns)

/-- The call `actions.Create(gr, c, object, ns, opts)`. -/
def Create (c : Clients) (gr : GroupVersionResource) (object : Unstructured) (ns : String)
    (opts : CreateOptions) : Run Unstructured :=
  Run.call (.create gr object ns opts) (c.Create gr object ns opts)

end actions

namespace pipelinerun

/-- The call `pr.ConvertTo(ctx, &prv1)` on a blank `prv1`. -/
def ConvertTo (d : Deps) (pr : v1beta1.PipelineRun) : Run v1.PipelineRun :=
  Run.call (.convertTo pr) (d.ConvertTo pr)

/-- The call `blank.ConvertFrom(ctx, &pipelinerun)` on a blank `v1beta1` value. -/
def ConvertFrom (d : Deps) (pipelinerun : v1.PipelineRun) : Run v1beta1.PipelineRun :=
  Run.call (.convertFrom pipelinerun) (d.ConvertFrom pipelinerun)

/-- The function `populatePipelineRunTaskStatuses`, run in the memory `m`.
The parameter `pr` is passed by value: it is a variable of the callee, in a
cell of its own (`prAddr`) that starts as a copy of the argument. The status
gatherer is handed the address of that cell and reads it, the two assignments
write to that cell, and the address of that cell is what is returned (Go
returns the nil pointer with an error). The copy is a copy of the struct: the
function makes no write through a map or pointer that the copy shares with
the value it was copied from, its only writes are the two field assignments. -/
def populatePipelineRunTaskStatuses (c : Clients) (ns : String) (pr : v1beta1.PipelineRun)
    (m : Memory) : Memory × Run Addr :=
  let prAddr := m.next
  let m := m.alloc pr
  match c.GetFullPipelineTaskStatuses ns pr with
  | .error err =>
    (m, ⟨[.statuses ns pr,
          .stderr ("Failed to get TaskRun and Run statuses for PipelineRun " ++ pr.Name ++
            " from namespace " ++ ns ++ "\n")], .error err⟩)
  | .ok (taskRunMap, runMap) =>
    let m := m.modify prAddr fun v => { v with Status := { v.Status with TaskRuns := taskRunMap } }
    let m := m.modify prAddr fun v => { v with Status := { v.Status with Runs := runMap } }
    (m, ⟨[.statuses ns pr], .ok prAddr⟩)

/-- The function `Get`, run in the memory `m`. The converter allocates the
parsed execution at the next free address, which becomes the variable
`pipelinerun`; the argument `*pipelinerun` of the enrichment is the content of
that cell, `parsed`. The result is the address the enrichment returns. -/
def Get (d : Deps) (c : Clients) (prname : String) (opts : GetOptions) (ns : String)
    (m : Memory) : Memory × Run Addr :=
  match c.Get pipelineRunGroupResource prname ns opts with
  | .error err => (m, ⟨[.get pipelineRunGroupResource prname ns opts], .error err⟩)
  | .ok unstructuredPR =>
    match d.FromUnstructuredV1beta1 unstructuredPR.UnstructuredContent with
    | .error err =>
      (m, ⟨[.get pipelineRunGroupResource prname ns opts,
            .stderr ("Failed to get pipelinerun from " ++ ns ++ " namespace \n")], .error err⟩)
    | .ok parsed =>
      let m := m.alloc parsed
      let populated := populatePipelineRunTaskStatuses c ns parsed m
      (populated.1,
        ⟨.get pipelineRunGroupResource prname ns opts :: populated.2.calls,
         populated.2.result⟩)

/-- The type `patchStringValue`. -/
structure patchStringValue where
  Op : GoString
  Path : GoString
  Value : GoString
  deriving DecidableEq, Repr

/-- The call `json.Marshal(payload)` on a slice of `patchStringValue`: an array
with one object per element, its members named by the struct tags `op`,
`path`, `value`, in the order of the fields, each a JSON string with the text
`jsonString` of the field. -/
def jsonMarshal (payload : List patchStringValue) : JSON :=
  .arr (payload.map fun p =>
    .obj [("op", .str (jsonString p.Op)), ("path", .str (jsonString p.Path)),
      ("value", .str (jsonString p.Value))])

/-- The function `Cancel`; the two string literals are the bytes of their
text. -/
def Cancel (c : Clients) (prname : String) (opts : PatchOptions) (cancelStatus : GoString)
    (ns : String) : Run v1.PipelineRun := do
  let payload : List patchStringValue :=
    [{ Op := utf8Bytes "replace", Path := utf8Bytes "/spec/status", Value := cancelStatus }]
  let data := jsonMarshal payload
  let prGroupResource : GroupVersionResource :=
    { Group := "tekton.dev", Resource := "pipelineruns" }
  let pipelinerun ← actions.Patch c prGroupResource prname data opts ns
  return pipelinerun

/-- The function `Create`. -/
def Create (d : Deps) (c : Clients) (pr : v1beta1.PipelineRun) (opts : CreateOptions)
    (ns : String) : Run v1beta1.PipelineRun := do
  let gvr ← actions.GetGroupVersionResource c pipelineRunGroupResource
  if gvr.Version = "v1" then
    let prv1 ← ConvertTo d pr
    let prv1 := { prv1 with Kind := "PipelineRun" }
    let prv1 := { prv1 with APIVersion := "tekton.dev/v1" }
    let object := d.ToUnstructuredV1 prv1
    let unstructuredPR : Unstructured := { Object := object }
    let newUnstructuredPR ← actions.Create c pipelineRunGroupResource unstructuredPR ns opts
    match d.FromUnstructuredV1 newUnstructuredPR.UnstructuredContent with
    | .error err => Run.fail err
    | .ok pipelinerun =>
      let pipelinerunv1beta1 ← ConvertFrom d pipelinerun
      let pipelinerunv1beta1 := { pipelinerunv1beta1 with Kind := "PipelineRun" }
      let pipelinerunv1beta1 := { pipelinerunv1beta1 with APIVersion := "tekton.dev/v1beta1" }
      return pipelinerunv1beta1
  else
    let object := d.ToUnstructuredV1beta1 pr
    let unstructuredPR : Unstructured := { Object := object }
    let newUnstructuredPR ← actions.Create c pipelineRunGroupResource unstructuredPR ns opts
    match d.FromUnstructuredV1beta1 newUnstructuredPR.UnstructuredContent with
    | .error err => Run.fail err
    | .ok pipelinerun => return pipelinerun

end pipelinerun

/-! ## The name step of the interactive create verb -/

namespace v1alpha1

/-- The spec of a pipeline resource. -/
structure PipelineResourceSpec where
  Type_ : String := ""
  Other : Fields := []
  deriving DecidableEq, Repr

/-- The pipeline resource object being built. -/
structure PipelineResource extends TypeMeta, ObjectMeta where
  Spec : PipelineResourceSpec := {}
  deriving DecidableEq, Repr

end v1alpha1

namespace survey

/-- One question of the prompt: its name, its message and whether an answer is
required. -/
structure Question where
  Name : String
  Message : String
  Required : Bool
  deriving DecidableEq, Repr

/-- The prompt option a `Resource` carries: it installs the terminal, so it
fixes what the prompt reads back for a list of questions (an answer, or the
error of the driver). -/
structure AskOpt where
  Stdio : List Question → Except error String

/-- The call `survey.Ask(qs, &answer, opts)`. -/
def Ask (qs : List Question) (opts : AskOpt) : Except error String := opts.Stdio qs

end survey

namespace pipelineresource

/-- The typed client reached by
`c.Resource.TektonV1alpha1().PipelineResources(ns).Get(ctx, name, opts)`. -/
structure ResourceClients where
  GetPipelineResource : String → String → GetOptions → Except error v1alpha1.PipelineResource

/-- The interface `cli.Params`, as far as the name step uses it. -/
structure Params where
  Clients : Except error ResourceClients
  Namespace : String

/-- The type `Resource` (its output stream is not used by the name step). -/
structure Resource where
  Params : Params
  AskOpts : survey.AskOpt
  PipelineResource : v1alpha1.PipelineResource := {}

/-- The function `Error`; `alloc` is the address of the error it allocates in
the `"interrupt"` case. -/
def Error (alloc : Addr) (err : error) : error :=
  match err.Error with
  | "interrupt" => errors.New alloc "interrupt"
  | _ => err

/-- The function `validate`; `none` is the nil error, `alloc` is the address
of the error it allocates when the resource exists. -/
def validate (alloc : Addr) (name : String) (p : Params) : Option error :=
  match p.Clients with
  | .error err => some err
  | .ok c =>
    match c.GetPipelineResource p.Namespace name {} with
    | .ok _ => some (errors.New alloc "resource already exist")
    | .error _ => none

/-- The method `AskMeta`: the receiver after the call, and the returned error
(`none` is nil); `alloc` is the address of the error that is allocated on the
way, by `Error` or by `validate`. -/
def AskMeta (alloc : Addr) (res : Resource) : Resource × Option error :=
  let qs : List survey.Question := [{
    Name := "resource name",
    Message := "Enter a name for a pipeline resource :",
    Required := true }]
  match survey.Ask qs res.AskOpts with
  | .error err => (res, some (Error alloc err))
  | .ok answer =>
    match validate alloc answer res.Params with
    | some err => (res, some err)
    | none => ({ res with PipelineResource := { res.PipelineResource with Name := answer } }, none)

end pipelineresource

/-! ## A concrete cluster and library, to run the embedding on -/

/-- Modelled from the spec: the ordering of listings, `prsort.SortByStartTime`
not being among the sources. A run comes before another when its start time is
later; runs without a start time come after all runs with one and are ordered
by later creation timestamp first; remaining ties go to the smaller name. -/
def startsBefore (a b : v1.PipelineRun) : Bool :=
  match a.Status.StartTime, b.Status.StartTime with
  | some ta, some tb => if ta = tb then !decide (b.Name < a.Name) else decide (tb < ta)
  | some _, none => true
  | none, some _ => false
  | none, none =>
    if a.CreationTimestamp = b.CreationTimestamp then !decide (b.Name < a.Name)
    else decide (b.CreationTimestamp < a.CreationTimestamp)

/-- Insertion of one run into a list ordered by `startsBefore`. -/
def insertByStartTime (run : v1.PipelineRun) : List v1.PipelineRun → List v1.PipelineRun
  | [] => [run]
  | x :: rest =>
    if startsBefore run x then run :: x :: rest else x :: insertByStartTime run rest

/-- Modelled from the spec: the sort of listings by `startsBefore`,
`prsort.SortByStartTime` not being among the sources. -/
def sortByStartTimeSpec : List v1.PipelineRun → List v1.PipelineRun
  | [] => []
  | x :: rest => insertByStartTime x (sortByStartTimeSpec rest)

/-- The string-valued members of an object. -/
def stringMembers (members : List (String × JSON)) : Fields :=
  members.filterMap fun kv =>
    match kv.2 with
    | .str s => some (kv.1, s)
    | _ => none

/-- The members of the object stored under a key, none when it is absent. -/
def memberObject (content : List (String × JSON)) (key : String) : List (String × JSON) :=
  match content.lookup key with
  | some (.obj members) => members
  | _ => []

/-- The number stored under a key, when there is one. -/
def memberNumber (content : List (String × JSON)) (key : String) : Option Int :=
  match content.lookup key with
  | some (.num n) => some n
  | _ => none

/-- The wire form of a list of string fields. -/
def fieldsObject (fields : Fields) : JSON :=
  .obj (fields.map fun kv => (kv.1, JSON.str kv.2))

/-- The wire form of the start time: a member only when it is set. -/
def startTimeMembers (t : Option Time) : List (String × JSON) :=
  match t with
  | some n => [("startTime", .num n)]
  | none => []

/-- The spec fields the sample `v1` shape knows. -/
def sampleV1SpecFields : List String :=
  ["pipelineRef", "status", "taskRunTemplate.serviceAccountName"]

/-- The spec fields the sample `v1beta1` shape knows. -/
def sampleV1beta1SpecFields : List String :=
  ["pipelineRef", "status", "serviceAccountName"]

/-- The renaming of a spec field between the two sample shapes. -/
def renameField (source target : String) (kv : String × String) : String × String :=
  if kv.1 = source then (target, kv.2) else kv

/-- A sample library: ages in whole minutes, the spec-modelled sort, a
converter that writes the type fields, the metadata, the spec and the start
time and that drops the fields the target shape does not know, and version
conversions that rename the service account field and leave the type fields
blank. -/
def sampleDeps : Deps where
  Age := fun t time =>
    match t with
    | none => "---"
    | some n => if time.Now - n < 60 then "seconds ago" else "minutes ago"
  SortByStartTime := sortByStartTimeSpec
  ToUnstructuredV1 := fun x =>
    [("kind", .str x.Kind), ("apiVersion", .str x.APIVersion),
     ("metadata", .obj [("name", .str x.Name), ("namespace", .str x.Namespace),
        ("resourceVersion", .str x.ResourceVersion)]),
     ("spec", fieldsObject x.Spec),
     ("status", .obj (startTimeMembers x.Status.StartTime))]
  ToUnstructuredV1beta1 := fun x =>
    [("kind", .str x.Kind), ("apiVersion", .str x.APIVersion),
     ("metadata", .obj [("name", .str x.Name), ("namespace", .str x.Namespace),
        ("resourceVersion", .str x.ResourceVersion)]),
     ("spec", fieldsObject x.Spec),
     ("status", .obj (startTimeMembers x.Status.StartTime))]
  FromUnstructuredV1 := fun content =>
    .ok {
      Kind := nestedString content "kind"
      APIVersion := nestedString content "apiVersion"
      Name := nestedString (memberObject content "metadata") "name"
      Namespace := nestedString (memberObject content "metadata") "namespace"
      ResourceVersion := nestedString (memberObject content "metadata") "resourceVersion"
      Spec := (stringMembers (memberObject content "spec")).filter
        fun kv => sampleV1SpecFields.contains kv.1
      Status := { StartTime := memberNumber (memberObject content "status") "startTime" } }
  FromUnstructuredV1beta1 := fun content =>
    .ok {
      Kind := nestedString content "kind"
      APIVersion := nestedString content "apiVersion"
      Name := nestedString (memberObject content "metadata") "name"
      Namespace := nestedString (memberObject content "metadata") "namespace"
      ResourceVersion := nestedString (memberObject content "metadata") "resourceVersion"
      Spec := (stringMembers (memberObject content "spec")).filter
        fun kv => sampleV1beta1SpecFields.contains kv.1
      Status := { StartTime := memberNumber (memberObject content "status") "startTime" } }
  ConvertTo := fun pr =>
    .ok {
      Name := pr.Name
      Namespace := pr.Namespace
      ResourceVersion := pr.ResourceVersion
      CreationTimestamp := pr.CreationTimestamp
      Spec := pr.Spec.map (renameField "serviceAccountName" "taskRunTemplate.serviceAccountName")
      Status := { StartTime := pr.Status.StartTime, Other := pr.Status.Other } }
  ConvertFrom := fun pr =>
    .ok {
      Name := pr.Name
      Namespace := pr.Namespace
      ResourceVersion := pr.ResourceVersion
      CreationTimestamp := pr.CreationTimestamp
      Spec := pr.Spec.map (renameField "taskRunTemplate.serviceAccountName" "serviceAccountName")
      Status := { StartTime := pr.Status.StartTime, Other := pr.Status.Other } }

/-- The not-found error of the sample cluster. -/
def sampleNotFound (name : String) : error :=
  .status "NotFound" ("pipelineruns.tekton.dev \"" ++ name ++ "\" not found")

/-- A sample cluster serving the execution kind at `version`: it lists
`items`, holds the one run `r1` (whose wire form is `stored`), echoes what is
created and reports one child task of every execution. -/
def sampleClients (version : String) (items : List v1.PipelineRun)
    (stored : List (String × JSON)) : Clients where
  GetGroupVersionResource := fun gr => .ok { gr with Version := version }
  ListV1 := fun _ _ _ => .ok { Items := items }
  Get := fun _ name _ _ =>
    if name = "r1" then .ok { Object := stored } else .error (sampleNotFound name)
  Patch := fun _ name _ _ ns =>
    if name = "r1" then .ok { Name := "r1", Namespace := ns } else .error (sampleNotFound name)
  Create := fun _ object _ _ => .ok object
  GetFullPipelineTaskStatuses := fun _ pr =>
    .ok ([(pr.Name ++ "-build", [("podName", pr.Name ++ "-build-pod")])], [])

/-- Five sample runs `r1` to `r5`, started at 100, 200, 300, 400 and 500. -/
def sampleRuns : List v1.PipelineRun :=
  [{ Name := "r1", Status := { StartTime := some 100 } },
   { Name := "r2", Status := { StartTime := some 200 } },
   { Name := "r3", Status := { StartTime := some 300 } },
   { Name := "r4", Status := { StartTime := some 400 } },
   { Name := "r5", Status := { StartTime := some 500 } }]

/-- The clock of the samples. -/
def sampleClock : Clock := { Now := 520 }

/-- The converter writes the type fields of a typed object under the members
`kind` and `apiVersion` of its wire form, for both shapes. -/
def WritesTypeFields (d : Deps) : Prop :=
  (∀ x : v1.PipelineRun,
    (Unstructured.mk (d.ToUnstructuredV1 x)).GetKind = x.Kind ∧
    (Unstructured.mk (d.ToUnstructuredV1 x)).GetAPIVersion = x.APIVersion) ∧
  (∀ x : v1beta1.PipelineRun,
    (Unstructured.mk (d.ToUnstructuredV1beta1 x)).GetKind = x.Kind ∧
    (Unstructured.mk (d.ToUnstructuredV1beta1 x)).GetAPIVersion = x.APIVersion)

/-- The wire form of a `v1` run `r1` whose service account is set in the `v1`
place, as a cluster serving `v1` stores it. -/
def sampleStored : List (String × JSON) :=
  [("kind", .str "PipelineRun"), ("apiVersion", .str "tekton.dev/v1"),
   ("metadata", .obj [("name", .str "r1"), ("namespace", .str "ci"),
      ("resourceVersion", .str "7")]),
   ("spec", .obj [("pipelineRef", .str "build"),
      ("taskRunTemplate.serviceAccountName", .str "builder")]),
   ("status", .obj [("startTime", .num 100)])]

/-- A caller's execution `r1` built without type fields. -/
def sampleInput : v1beta1.PipelineRun :=
  { Name := "r1", Namespace := "ci",
    Spec := [("pipelineRef", "build"), ("serviceAccountName", "builder")] }

/-- A sample create session in namespace `ci`, where the pipeline resource
`existing-git` already exists and the user answers `answer` to the name
question. -/
def sampleResource (answer : String) : pipelineresource.Resource where
  Params := {
    Clients := .ok {
      GetPipelineResource := fun ns name _ =>
        if ns = "ci" ∧ name = "existing-git" then .ok { Name := name, Namespace := ns }
        else .error (.status "NotFound" ("pipelineresources.tekton.dev \"" ++ name ++
          "\" not found")) }
    Namespace := "ci" }
  AskOpts := { Stdio := fun _ => .ok answer }
  PipelineResource := { Namespace := "ci" }

/-! ## Listing: limit and order -/

/-- Every list is a rearrangement of its insertion. -/
theorem insertByStartTime_perm (run : v1.PipelineRun) (l : List v1.PipelineRun) :
    (insertByStartTime run l).Perm (run :: l) := by
  induction l with
  | nil => simp [insertByStartTime]
  | cons x rest ih =>
    unfold insertByStartTime
    split
    · exact List.Perm.refl _
    · exact ((List.Perm.cons x ih).trans (List.Perm.swap run x rest))

/-- The spec-modelled sort rearranges its input. -/
theorem sortByStartTimeSpec_perm (l : List v1.PipelineRun) :
    (sortByStartTimeSpec l).Perm l := by
  induction l with
  | nil => simp [sortByStartTimeSpec]
  | cons x rest ih =>
    unfold sortByStartTimeSpec
    exact (insertByStartTime_perm x _).trans (List.Perm.cons x ih)

/-- A rearrangement of a list with fewer than two items is the list. -/
theorem perm_short_eq {α : Type} (l₁ l₂ : List α) (h : l₁.Perm l₂) (hlen : ¬ l₂.length > 1) :
    l₁ = l₂ := by
  match l₂, h, hlen with
  | [], h, _ => exact List.Perm.eq_nil h
  | [a], h, _ => exact List.perm_singleton.mp h
  | _ :: _ :: _, _, hlen => simp at hlen

/-- The loop appends the display lines of the items whose index is below the
limit, which are the first `limit - i` of the remaining items. -/
theorem rangeItems_eq (d : Deps) (time : Clock) (limit : Int) (items : List v1.PipelineRun)
    (i : Nat) (ret : List String) :
    pipelinerun.rangeItems d time limit items i ret =
      ret ++ (items.take (limit - i).toNat).map (pipelinerun.displayLine d time) := by
  induction items generalizing i ret with
  | nil => simp [pipelinerun.rangeItems]
  | cons run rest ih =>
    unfold pipelinerun.rangeItems
    rw [ih]
    by_cases h : (i : Int) < limit
    · have h1 : (limit - (i : Int)).toNat = (limit - ((i + 1 : Nat) : Int)).toNat + 1 := by
        push_cast
        omega
      rw [if_pos h, h1]
      simp
    · have h1 : (limit - (i : Int)).toNat = 0 := by omega
      have h2 : (limit - ((i + 1 : Nat) : Int)).toNat = 0 := by
        push_cast
        omega
      rw [if_neg h, h1, h2]
      simp

/-- What `GetAllPipelineRuns` returns on a successful listing, in closed form,
for a sort that rearranges its input. -/
theorem GetAllPipelineRuns_eq (d : Deps) (gr : GroupVersionResource) (opts : ListOptions)
    (c : Clients) (ns : String) (limit : Int) (time : Clock) (alloc : Addr)
    (prl : v1.PipelineRunList)
    (hsort : ∀ l, (d.SortByStartTime l).Perm l)
    (hlist : c.ListV1 gr opts ns = .ok prl) :
    pipelinerun.GetAllPipelineRuns d gr opts c ns limit time alloc =
      .ok (((d.SortByStartTime prl.Items).take (min limit.toNat prl.Items.length)).map
        (pipelinerun.displayLine d time)) := by
  have hitems : (if prl.Items.length > 1 then d.SortByStartTime prl.Items else prl.Items) =
      d.SortByStartTime prl.Items := by
    split
    · rfl
    · next h => exact (perm_short_eq _ _ (hsort prl.Items) h).symm
  have hlen : (d.SortByStartTime prl.Items).length = prl.Items.length := (hsort prl.Items).length_eq
  unfold pipelinerun.GetAllPipelineRuns
  simp only [hlist, hitems, rangeItems_eq, List.nil_append]
  congr 2
  by_cases h : limit > (prl.Items.length : Int)
  · rw [if_pos h]
    have : min limit.toNat prl.Items.length = prl.Items.length := by omega
    simp [this]
  · rw [if_neg h]
    have : min limit.toNat prl.Items.length = limit.toNat := by omega
    simp [this]

/-- C1, as stated, fails: the sample cluster lists five executions, the limit
is 0, and `GetAllPipelineRuns` returns no line at all. -/
theorem C1_nonpositive_limit_counterexample :
    (sampleClients "v1" sampleRuns []).ListV1 {} {} "ci" = .ok { Items := sampleRuns } ∧
    sampleRuns.length = 5 ∧
    pipelinerun.GetAllPipelineRuns sampleDeps {} {} (sampleClients "v1" sampleRuns []) "ci" 0
      sampleClock 0 = .ok [] :=
  ⟨rfl, rfl, rfl⟩

/-- C1, amended: for every successfully listed sequence of executions and every
limit `k ≤ 0`, `GetAllPipelineRuns` returns no error and an empty list of
display lines, whatever the sort does. -/
theorem C1_nonpositive_limit_returns_no_line (d : Deps) (gr : GroupVersionResource)
    (opts : ListOptions) (c : Clients) (ns : String) (limit : Int) (time : Clock) (alloc : Addr)
    (prl : v1.PipelineRunList)
    (hlist : c.ListV1 gr opts ns = .ok prl) (hlimit : limit ≤ 0) :
    pipelinerun.GetAllPipelineRuns d gr opts c ns limit time alloc = .ok [] := by
  unfold pipelinerun.GetAllPipelineRuns
  simp only [hlist, rangeItems_eq, List.nil_append]
  have h : ¬ limit > (prl.Items.length : Int) := by omega
  rw [if_neg h]
  have h0 : (limit - ((0 : Nat) : Int)).toNat = 0 := by
    push_cast
    omega
  rw [h0]
  simp

/-- Witness of the amended C1 on the sample cluster with limit -2. -/
theorem C1_nonpositive_limit_returns_no_line_witness :
    pipelinerun.GetAllPipelineRuns sampleDeps {} {} (sampleClients "v1" sampleRuns []) "ci" (-2)
      sampleClock 0 = .ok [] :=
  C1_nonpositive_limit_returns_no_line sampleDeps {} {} (sampleClients "v1" sampleRuns []) "ci"
    (-2) sampleClock 0 { Items := sampleRuns } rfl (by decide)

/-- C2: for every successfully listed sequence of `N` executions and every
limit `k > 0`, `GetAllPipelineRuns` returns no error and a list of exactly
`min k N` lines; a limit above `N` gives `N` lines and an empty listing gives
the empty list. The sort is any function that rearranges its input. -/
theorem C2_positive_limit_length (d : Deps) (gr : GroupVersionResource) (opts : ListOptions)
    (c : Clients) (ns : String) (limit : Int) (time : Clock) (alloc : Addr)
    (prl : v1.PipelineRunList)
    (hsort : ∀ l, (d.SortByStartTime l).Perm l)
    (hlist : c.ListV1 gr opts ns = .ok prl) (hlimit : limit > 0) :
    ∃ ret, pipelinerun.GetAllPipelineRuns d gr opts c ns limit time alloc = .ok ret ∧
      (ret.length : Int) = min limit (prl.Items.length : Int) ∧
      (limit > (prl.Items.length : Int) → ret.length = prl.Items.length) ∧
      (prl.Items.length = 0 → ret = []) := by
  refine ⟨_, GetAllPipelineRuns_eq d gr opts c ns limit time alloc prl hsort hlist, ?_, ?_, ?_⟩
  · have hlen := (hsort prl.Items).length_eq
    simp only [List.length_map, List.length_take, hlen]
    omega
  · intro h
    have hlen := (hsort prl.Items).length_eq
    simp only [List.length_map, List.length_take, hlen]
    omega
  · intro h
    have hlen := (hsort prl.Items).length_eq
    apply List.eq_nil_of_length_eq_zero
    simp only [List.length_map, List.length_take, hlen]
    omega

/-- Witness of C2 on the sample cluster: five executions, limit 3. -/
theorem C2_positive_limit_length_witness :
    ∃ ret, pipelinerun.GetAllPipelineRuns sampleDeps {} {} (sampleClients "v1" sampleRuns [])
        "ci" 3 sampleClock 0 = .ok ret ∧
      (ret.length : Int) = min 3 ((5 : Nat) : Int) ∧
      ((3 : Int) > ((5 : Nat) : Int) → ret.length = 5) ∧
      (5 = 0 → ret = []) :=
  C2_positive_limit_length sampleDeps {} {} (sampleClients "v1" sampleRuns []) "ci" 3
    sampleClock 0 { Items := sampleRuns } sortByStartTimeSpec_perm rfl (by decide)

/-- C3: for every successfully listed sequence of executions and every limit
`k > 0`, the list `GetAllPipelineRuns` returns is the image, under
`name ++ " started " ++ Age(startTime, clock)`, of the first `min k N` entries
of the sorted sequence, in that order, so its `i`-th line is the display line
of the `i`-th sorted execution, and a non-empty listing gives at least one
line; this holds also when fewer than two items make the code skip the sort. The sort is any function that rearranges its input. -/
theorem C3_lines_follow_sorted_order (d : Deps) (gr : GroupVersionResource) (opts : ListOptions)
    (c : Clients) (ns : String) (limit : Int) (time : Clock) (alloc : Addr)
    (prl : v1.PipelineRunList)
    (hsort : ∀ l, (d.SortByStartTime l).Perm l)
    (hlist : c.ListV1 gr opts ns = .ok prl) (hlimit : limit > 0) :
    ∃ ret, pipelinerun.GetAllPipelineRuns d gr opts c ns limit time alloc = .ok ret ∧
      ret = ((d.SortByStartTime prl.Items).take (min limit.toNat prl.Items.length)).map
        (fun run => run.Name ++ " started " ++ d.Age run.Status.StartTime time) ∧
      (∀ i, i < min limit.toNat prl.Items.length →
        ret[i]? = ((d.SortByStartTime prl.Items)[i]?).map
          (fun run => run.Name ++ " started " ++ d.Age run.Status.StartTime time)) ∧
      (prl.Items ≠ [] → ret ≠ []) := by
  refine ⟨_, GetAllPipelineRuns_eq d gr opts c ns limit time alloc prl hsort hlist, rfl, ?_, ?_⟩
  · intro i hi
    rw [List.getElem?_map, List.getElem?_take]
    simp [hi]
    rfl
  · intro hne hnil
    have hlen := (hsort prl.Items).length_eq
    have h0 := congrArg List.length hnil
    have hpos : 0 < prl.Items.length := List.length_pos.mpr hne
    simp only [List.length_map, List.length_take, hlen, List.length_nil] at h0
    omega

/-- Witness of C3 on the sample cluster: five executions started at 100 to
500, limit 3, the three most recent come first. -/
theorem C3_lines_follow_sorted_order_witness :
    ∃ ret, pipelinerun.GetAllPipelineRuns sampleDeps {} {} (sampleClients "v1" sampleRuns [])
        "ci" 3 sampleClock 0 = .ok ret ∧
      ret = ((sampleDeps.SortByStartTime sampleRuns).take (min (3 : Int).toNat 5)).map
        (fun run => run.Name ++ " started " ++ sampleDeps.Age run.Status.StartTime sampleClock) ∧
      (∀ i, i < min (3 : Int).toNat 5 →
        ret[i]? = ((sampleDeps.SortByStartTime sampleRuns)[i]?).map
          (fun run => run.Name ++ " started " ++ sampleDeps.Age run.Status.StartTime sampleClock)) ∧
      (sampleRuns ≠ [] → ret ≠ []) :=
  C3_lines_follow_sorted_order sampleDeps {} {} (sampleClients "v1" sampleRuns []) "ci" 3
    sampleClock 0 { Items := sampleRuns } sortByStartTimeSpec_perm rfl (by decide)

/-! ## Sequencing of runs -/

/-- Monadic sequencing of runs is `Run.bind`. -/
theorem Run.bind_eq {α β : Type} (m : Run α) (f : α → Run β) : (m >>= f) = Run.bind m f := rfl

/-- Monadic return of runs is `Run.pure`. -/
theorem Run.pure_eq {α : Type} (a : α) : (Pure.pure a : Run α) = Run.pure a := rfl

/-- Sequencing after a call that answered a value. -/
theorem Run.bind_call_ok {α β : Type} (ev : Call) (a : α) (f : α → Run β) :
    Run.bind (Run.call ev (.ok a)) f = ⟨ev :: (f a).calls, (f a).result⟩ := rfl

/-- Sequencing after a call that answered an error. -/
theorem Run.bind_call_error {α β : Type} (ev : Call) (err : error) (f : α → Run β) :
    Run.bind (Run.call ev (.error err : Except error α)) f = ⟨[ev], .error err⟩ := rfl

/-! ## JSON strings -/

/-- Decoding the encoding of a character gives the character and the width of
its encoding, whatever bytes follow. -/
theorem DecodeRune_encode (ch : Char) (rest : List Nat) :
    DecodeRune (utf8EncodeRune ch.toNat ++ rest) = (ch, (utf8EncodeRune ch.toNat).length) := by
  have hv : ch.toNat < 0xD800 ∨ (0xDFFF < ch.toNat ∧ ch.toNat < 0x110000) := ch.valid
  have hof : Char.ofNat ch.toNat = ch := Char.ofNat_toNat ch
  generalize ch.toNat = n at hv hof
  unfold utf8EncodeRune
  by_cases h1 : n < 0x80
  · simp [h1, DecodeRune, hof]
  · by_cases h2 : n < 0x800
    · have e : (0xC0 + n / 64 - 0xC0) * 64 + (0x80 + n % 64 - 0x80) = n := by omega
      have c1 : ¬ (0xC0 + n / 64 < 0x80) := by omega
      have c2 : 0xC2 ≤ 0xC0 + n / 64 ∧ 0xC0 + n / 64 ≤ 0xDF := by omega
      have c3 : 0x80 ≤ 0x80 + n % 64 ∧ 0x80 + n % 64 ≤ 0xBF := by omega
      simp only [h1, h2, if_false, if_true, List.cons_append, List.nil_append, DecodeRune, c1, c2,
        c3, e, hof, and_self, List.length_cons, List.length_nil]
    · by_cases h3 : n < 0x10000
      · have e : ((0xE0 + n / 4096 - 0xE0) * 64 + (0x80 + n / 64 % 64 - 0x80)) * 64 +
            (0x80 + n % 64 - 0x80) = n := by omega
        have c1 : ¬ (0xE0 + n / 4096 < 0x80) := by omega
        have c2 : ¬ (0xC2 ≤ 0xE0 + n / 4096 ∧ 0xE0 + n / 4096 ≤ 0xDF) := by omega
        have c3 : 0xE0 ≤ 0xE0 + n / 4096 ∧ 0xE0 + n / 4096 ≤ 0xEF := by omega
        have c4 : (acceptRange (0xE0 + n / 4096)).1 ≤ 0x80 + n / 64 % 64 ∧
            0x80 + n / 64 % 64 ≤ (acceptRange (0xE0 + n / 4096)).2 ∧
            0x80 ≤ 0x80 + n % 64 ∧ 0x80 + n % 64 ≤ 0xBF := by
          unfold acceptRange
          by_cases k0 : 0xE0 + n / 4096 = 0xE0
          · rw [if_pos k0]
            dsimp only
            omega
          · rw [if_neg k0]
            by_cases k1 : 0xE0 + n / 4096 = 0xED
            · rw [if_pos k1]
              dsimp only
              omega
            · have k2 : ¬ (0xE0 + n / 4096 = 0xF0) := by omega
              have k3 : ¬ (0xE0 + n / 4096 = 0xF4) := by omega
              rw [if_neg k1, if_neg k2, if_neg k3]
              dsimp only
              omega
        simp only [h1, h2, h3, if_false, if_true, List.cons_append, List.nil_append, DecodeRune,
          c1, c2, c3, c4, e, hof, and_self, List.length_cons, List.length_nil]
      · have e : (((0xF0 + n / 262144 - 0xF0) * 64 + (0x80 + n / 4096 % 64 - 0x80)) * 64 +
            (0x80 + n / 64 % 64 - 0x80)) * 64 + (0x80 + n % 64 - 0x80) = n := by omega
        have c1 : ¬ (0xF0 + n / 262144 < 0x80) := by omega
        have c2 : ¬ (0xC2 ≤ 0xF0 + n / 262144 ∧ 0xF0 + n / 262144 ≤ 0xDF) := by omega
        have c3 : ¬ (0xE0 ≤ 0xF0 + n / 262144 ∧ 0xF0 + n / 262144 ≤ 0xEF) := by omega
        have c4 : 0xF0 ≤ 0xF0 + n / 262144 ∧ 0xF0 + n / 262144 ≤ 0xF4 := by omega
        have c5 : (acceptRange (0xF0 + n / 262144)).1 ≤ 0x80 + n / 4096 % 64 ∧
            0x80 + n / 4096 % 64 ≤ (acceptRange (0xF0 + n / 262144)).2 ∧
            0x80 ≤ 0x80 + n / 64 % 64 ∧ 0x80 + n / 64 % 64 ≤ 0xBF ∧
            0x80 ≤ 0x80 + n % 64 ∧ 0x80 + n % 64 ≤ 0xBF := by
          unfold acceptRange
          have k0 : ¬ (0xF0 + n / 262144 = 0xE0) := by omega
          have k1 : ¬ (0xF0 + n / 262144 = 0xED) := by omega
          rw [if_neg k0, if_neg k1]
          by_cases k2 : 0xF0 + n / 262144 = 0xF0
          · rw [if_pos k2]
            dsimp only
            omega
          · rw [if_neg k2]
            by_cases k3 : 0xF0 + n / 262144 = 0xF4
            · rw [if_pos k3]
              dsimp only
              omega
            · rw [if_neg k3]
              dsimp only
              omega
        simp only [h1, h2, h3, if_false, if_true, List.cons_append, List.nil_append, DecodeRune,
          c1, c2, c3, c4, c5, e, hof, and_self, List.length_cons, List.length_nil]

/-- An encoding has at least one byte. -/
theorem utf8EncodeRune_length_pos (n : Nat) : 0 < (utf8EncodeRune n).length := by
  unfold utf8EncodeRune
  split
  · simp
  · split
    · simp
    · split <;> simp

/-- Reading the encoding of a list of characters gives the list, with any fuel
that is at least the number of bytes. -/
theorem appendRunes_encode (cs : List Char) (fuel : Nat)
    (hfuel : (cs.flatMap fun ch => utf8EncodeRune ch.toNat).length ≤ fuel) :
    appendRunes fuel (cs.flatMap fun ch => utf8EncodeRune ch.toNat) = cs := by
  induction cs generalizing fuel with
  | nil => cases fuel <;> rfl
  | cons ch cs ih =>
    have hpos := utf8EncodeRune_length_pos ch.toNat
    simp only [List.flatMap_cons, List.length_append] at hfuel ⊢
    cases hbytes : utf8EncodeRune ch.toNat with
    | nil => simp [hbytes] at hpos
    | cons b0 tail =>
      cases fuel with
      | zero => omega
      | succ fuel =>
        have hdec := DecodeRune_encode ch (cs.flatMap fun ch => utf8EncodeRune ch.toNat)
        rw [hbytes] at hdec hfuel
        simp only [List.cons_append] at hdec ⊢
        unfold appendRunes
        rw [hdec]
        simp only [List.length_cons] at hfuel ⊢
        have hdrop : List.drop (tail.length + 1)
            (b0 :: (tail ++ cs.flatMap fun ch => utf8EncodeRune ch.toNat)) =
            cs.flatMap fun ch => utf8EncodeRune ch.toNat := by
          simp
        rw [hdrop, ih fuel (by omega)]

/-- The JSON string written for the UTF-8 bytes of a text has that text. -/
theorem jsonString_utf8Bytes (t : String) : jsonString (utf8Bytes t) = t := by
  unfold jsonString utf8Bytes
  rw [appendRunes_encode t.data _ (Nat.le_refl _)]

/-- A decoding step on a non-empty sequence consumes at least one byte. -/
theorem DecodeRune_width_pos (b0 : Nat) (rest : List Nat) :
    0 < (DecodeRune (b0 :: rest)).2 := by
  unfold DecodeRune
  repeat' split
  all_goals simp_all

/-- Fuel equal to the number of bytes is enough: more fuel reads the same
text. -/
theorem appendRunes_fuel (fuel : Nat) (bytes : List Nat) (h : bytes.length ≤ fuel) :
    appendRunes (fuel + 1) bytes = appendRunes fuel bytes := by
  induction fuel generalizing bytes with
  | zero =>
    cases bytes with
    | nil => rfl
    | cons b0 rest => simp at h
  | succ fuel ih =>
    cases bytes with
    | nil => rfl
    | cons b0 rest =>
      have hpos := DecodeRune_width_pos b0 rest
      have hlen : (List.drop (DecodeRune (b0 :: rest)).2 (b0 :: rest)).length ≤ fuel := by
        simp only [List.length_drop, List.length_cons] at h ⊢
        omega
      show _ :: appendRunes (fuel + 1) _ = _ :: appendRunes fuel _
      rw [ih _ hlen]

/-! ## Cancel -/

/-- C4, as stated, fails for a cancel status that is not valid UTF-8: for the
bytes of `bad`, the byte `0xFF` and the bytes of `byte`, the value of the one
operation is the text `bad`, U+FFFD, `byte`, whose bytes are not the bytes
passed in. -/
theorem C4_cancel_patch_value_counterexample :
    patchBodies (pipelinerun.Cancel (sampleClients "v1" [] []) "r1" {}
      [0x62, 0x61, 0x64, 0xFF, 0x62, 0x79, 0x74, 0x65] "ci").calls =
      [JSON.arr [JSON.obj [("op", .str "replace"), ("path", .str "/spec/status"),
        ("value", .str "bad\uFFFDbyte")]]] ∧
    utf8Bytes "bad\uFFFDbyte" = [0x62, 0x61, 0x64, 0xEF, 0xBF, 0xBD, 0x62, 0x79, 0x74, 0x65] ∧
    utf8Bytes "bad\uFFFDbyte" ≠ [0x62, 0x61, 0x64, 0xFF, 0x62, 0x79, 0x74, 0x65] :=
  ⟨rfl, rfl, by decide⟩

/-- C4, amended: for every run name, namespace and cancel status `s`, `Cancel`
makes exactly one call, a patch of the `tekton.dev` `pipelineruns` resource
whose body is a JSON-Patch array with exactly one operation: `op` is
`"replace"`, `path` is `"/spec/status"` and `value` is the text `json.Marshal`
reads from `s`, in which every byte that starts no valid UTF-8 encoding has
become U+FFFD; when `s` is the UTF-8 encoding of a text `t`, `value` is `t`
itself, unchanged. -/
theorem C4_cancel_patch_body (c : Clients) (prname : String) (opts : PatchOptions)
    (s : GoString) (t : String) (ns : String) :
    patchBodies (pipelinerun.Cancel c prname opts s ns).calls =
      [JSON.arr [JSON.obj [("op", .str "replace"), ("path", .str "/spec/status"),
        ("value", .str (jsonString s))]]] ∧
    (pipelinerun.Cancel c prname opts s ns).calls =
      [Call.patch { Group := "tekton.dev", Resource := "pipelineruns" } prname
        (JSON.arr [JSON.obj [("op", .str "replace"), ("path", .str "/spec/status"),
          ("value", .str (jsonString s))]]) opts ns] ∧
    patchBodies (pipelinerun.Cancel c prname opts (utf8Bytes t) ns).calls =
      [JSON.arr [JSON.obj [("op", .str "replace"), ("path", .str "/spec/status"),
        ("value", .str t)]]] := by
  have hcalls : ∀ s : GoString, (pipelinerun.Cancel c prname opts s ns).calls =
      [Call.patch { Group := "tekton.dev", Resource := "pipelineruns" } prname
        (JSON.arr [JSON.obj [("op", .str "replace"), ("path", .str "/spec/status"),
          ("value", .str (jsonString s))]]) opts ns] := by
    intro s
    have hop : jsonString (utf8Bytes "replace") = "replace" := jsonString_utf8Bytes _
    have hpath : jsonString (utf8Bytes "/spec/status") = "/spec/status" :=
      jsonString_utf8Bytes _
    unfold pipelinerun.Cancel actions.Patch
    simp only [Run.bind_eq, Run.pure_eq, pipelinerun.jsonMarshal, List.map, hop, hpath]
    cases h : c.Patch { Group := "tekton.dev", Resource := "pipelineruns" } prname
        (JSON.arr [JSON.obj [("op", .str "replace"), ("path", .str "/spec/status"),
          ("value", .str (jsonString s))]]) opts ns with
    | error err => simp [Run.bind_call_error]
    | ok a => simp [Run.bind_call_ok, Run.pure]
  refine ⟨?_, hcalls s, ?_⟩
  · rw [hcalls s]
    rfl
  · rw [hcalls (utf8Bytes t), jsonString_utf8Bytes]
    rfl

/-- C9: for every error `e` the patch gateway answers, `Cancel` returns no
execution and exactly `e`, and the patch call is the only call it made. -/
theorem C9_cancel_error_verbatim (c : Clients) (prname : String) (opts : PatchOptions)
    (s : GoString) (ns : String) (e : error)
    (hpatch : c.Patch { Group := "tekton.dev", Resource := "pipelineruns" } prname
      (pipelinerun.jsonMarshal
        [{ Op := utf8Bytes "replace", Path := utf8Bytes "/spec/status", Value := s }])
      opts ns = .error e) :
    (pipelinerun.Cancel c prname opts s ns).result = .error e ∧
    (pipelinerun.Cancel c prname opts s ns).calls =
      [Call.patch { Group := "tekton.dev", Resource := "pipelineruns" } prname
        (pipelinerun.jsonMarshal
          [{ Op := utf8Bytes "replace", Path := utf8Bytes "/spec/status", Value := s }])
        opts ns] ∧
    (patchBodies (pipelinerun.Cancel c prname opts s ns).calls).length = 1 := by
  unfold pipelinerun.Cancel actions.Patch
  simp only [Run.bind_eq, Run.pure_eq, hpatch, Run.bind_call_error, patchBodies]
  simp

/-- Witness of C9: cancelling the run `r0`, which the sample cluster does not
hold, returns its not-found error after one patch call. -/
theorem C9_cancel_error_verbatim_witness :
    (pipelinerun.Cancel (sampleClients "v1" [] []) "r0" {} (utf8Bytes "Cancelled") "ci").result =
      .error (.status "NotFound" "pipelineruns.tekton.dev \"r0\" not found") ∧
    (pipelinerun.Cancel (sampleClients "v1" [] []) "r0" {} (utf8Bytes "Cancelled") "ci").calls =
      [Call.patch { Group := "tekton.dev", Resource := "pipelineruns" } "r0"
        (pipelinerun.jsonMarshal
          [{ Op := utf8Bytes "replace", Path := utf8Bytes "/spec/status",
             Value := utf8Bytes "Cancelled" }]) {} "ci"] ∧
    (patchBodies (pipelinerun.Cancel (sampleClients "v1" [] []) "r0" {} (utf8Bytes "Cancelled")
      "ci").calls).length = 1 :=
  C9_cancel_error_verbatim (sampleClients "v1" [] []) "r0" {} (utf8Bytes "Cancelled") "ci"
    (.status "NotFound" "pipelineruns.tekton.dev \"r0\" not found") rfl

/-! ## Create -/

/-- The run of `Create` when discovery answers `v1` and the conversion of the
input succeeds: up to the create call. -/
theorem Create_v1_calls (d : Deps) (c : Clients) (pr : v1beta1.PipelineRun)
    (opts : CreateOptions) (ns : String) (gvr : GroupVersionResource) (prv1 : v1.PipelineRun)
    (hd : c.GetGroupVersionResource pipelinerun.pipelineRunGroupResource = .ok gvr)
    (hv : gvr.Version = "v1") (hto : d.ConvertTo pr = .ok prv1) :
    sentObjects (pipelinerun.Create d c pr opts ns).calls =
      [{ Object := d.ToUnstructuredV1
          { prv1 with Kind := "PipelineRun", APIVersion := "tekton.dev/v1" } }] := by
  unfold pipelinerun.Create actions.GetGroupVersionResource actions.Create pipelinerun.ConvertTo
    pipelinerun.ConvertFrom
  simp only [Run.bind_eq, Run.pure_eq, hd, Run.bind_call_ok, hv, if_true, hto]
  cases hc : c.Create pipelinerun.pipelineRunGroupResource
      { Object := d.ToUnstructuredV1
          { prv1 with Kind := "PipelineRun", APIVersion := "tekton.dev/v1" } } ns opts with
  | error err => simp [Run.bind_call_error, sentObjects]
  | ok echo =>
    simp only [Run.bind_call_ok]
    cases hp : d.FromUnstructuredV1 echo.UnstructuredContent with
    | error err => simp [Run.fail, sentObjects]
    | ok parsed =>
      cases hb : d.ConvertFrom parsed with
      | error err => simp [hb, Run.bind_call_error, sentObjects]
      | ok back => simp [hb, Run.bind_call_ok, Run.pure, sentObjects]

/-- The run of `Create` when discovery answers another version than `v1`. -/
theorem Create_other_run (d : Deps) (c : Clients) (pr : v1beta1.PipelineRun)
    (opts : CreateOptions) (ns : String) (gvr : GroupVersionResource)
    (hd : c.GetGroupVersionResource pipelinerun.pipelineRunGroupResource = .ok gvr)
    (hv : gvr.Version ≠ "v1") :
    (pipelinerun.Create d c pr opts ns).calls =
      [Call.discovery pipelinerun.pipelineRunGroupResource,
       Call.create pipelinerun.pipelineRunGroupResource
        { Object := d.ToUnstructuredV1beta1 pr } ns opts] ∧
    (pipelinerun.Create d c pr opts ns).result =
      (c.Create pipelinerun.pipelineRunGroupResource
        { Object := d.ToUnstructuredV1beta1 pr } ns opts >>= fun echo =>
          d.FromUnstructuredV1beta1 echo.UnstructuredContent) := by
  unfold pipelinerun.Create actions.GetGroupVersionResource actions.Create
  simp only [Run.bind_eq, Run.pure_eq, hd, Run.bind_call_ok, hv, if_false]
  cases hc : c.Create pipelinerun.pipelineRunGroupResource
      { Object := d.ToUnstructuredV1beta1 pr } ns opts with
  | error err =>
    simp only [Run.bind_call_error]
    refine ⟨trivial, ?_⟩
    show Except.error err = Except.bind (Except.error err) _
    rfl
  | ok echo =>
    simp only [Run.bind_call_ok]
    cases hp : d.FromUnstructuredV1beta1 echo.UnstructuredContent with
    | error err =>
      refine ⟨rfl, ?_⟩
      show Except.error err = Except.bind (Except.ok echo) _
      simp [Except.bind, hp]
    | ok parsed =>
      refine ⟨rfl, ?_⟩
      show Except.ok parsed = Except.bind (Except.ok echo) _
      simp [Except.bind, hp]

/-- C5, as stated, fails on the `v1beta1` path: the sample cluster serves
`v1beta1`, the caller's execution carries blank type fields, and the object
handed to the create gateway has kind `""` and apiVersion `""`. -/
theorem C5_sent_type_fields_counterexample :
    (sampleClients "v1beta1" [] []).GetGroupVersionResource pipelinerun.pipelineRunGroupResource =
      .ok { Group := "tekton.dev", Version := "v1beta1", Resource := "pipelineruns" } ∧
    (sentObjects (pipelinerun.Create sampleDeps (sampleClients "v1beta1" [] []) sampleInput {}
      "ci").calls).map (fun u => (u.GetKind, u.GetAPIVersion)) = [("", "")] ∧
    ("", "") ≠ ("PipelineRun", "tekton.dev/" ++ "v1beta1") :=
  ⟨rfl, rfl, by decide⟩

/-- C5, amended: when discovery answers `v1` and the input converts, the one
object `Create` sends is the wire form of the converted input with kind
`"PipelineRun"` and apiVersion `"tekton.dev/v1"`, the served values, whatever
type fields the input carried; when discovery answers any other version the one
object sent is the wire form of the caller's input as it is, so it carries the
caller's own kind and apiVersion. -/
theorem C5_sent_type_fields (d : Deps) (c : Clients) (pr : v1beta1.PipelineRun)
    (opts : CreateOptions) (ns : String) (gvr : GroupVersionResource)
    (hwire : WritesTypeFields d)
    (hd : c.GetGroupVersionResource pipelinerun.pipelineRunGroupResource = .ok gvr) :
    (gvr.Version = "v1" → ∀ prv1, d.ConvertTo pr = .ok prv1 →
      ∃ u, sentObjects (pipelinerun.Create d c pr opts ns).calls = [u] ∧
        u = Unstructured.mk (d.ToUnstructuredV1
          { prv1 with Kind := "PipelineRun", APIVersion := "tekton.dev/v1" }) ∧
        u.GetKind = "PipelineRun" ∧ u.GetAPIVersion = "tekton.dev/" ++ gvr.Version) ∧
    (gvr.Version ≠ "v1" →
      ∃ u, sentObjects (pipelinerun.Create d c pr opts ns).calls = [u] ∧
        u = Unstructured.mk (d.ToUnstructuredV1beta1 pr) ∧
        u.GetKind = pr.Kind ∧ u.GetAPIVersion = pr.APIVersion) := by
  constructor
  · intro hv prv1 hto
    refine ⟨_, Create_v1_calls d c pr opts ns gvr prv1 hd hv hto, rfl, ?_, ?_⟩
    · exact (hwire.1 _).1
    · rw [(hwire.1 _).2, hv]
      rfl
  · intro hv
    refine ⟨_, ?_, rfl, (hwire.2 pr).1, (hwire.2 pr).2⟩
    rw [(Create_other_run d c pr opts ns gvr hd hv).1]
    rfl

/-- The sample converter writes the type fields. -/
theorem sampleDeps_writesTypeFields : WritesTypeFields sampleDeps :=
  ⟨fun _ => ⟨rfl, rfl⟩, fun _ => ⟨rfl, rfl⟩⟩

/-- Witness of the amended C5 on the sample cluster serving `v1`, for a
caller's execution without type fields. -/
theorem C5_sent_type_fields_witness :
    ("v1" = "v1" → ∀ prv1, sampleDeps.ConvertTo sampleInput = .ok prv1 →
      ∃ u, sentObjects (pipelinerun.Create sampleDeps (sampleClients "v1" [] []) sampleInput {}
          "ci").calls = [u] ∧
        u = Unstructured.mk (sampleDeps.ToUnstructuredV1
          { prv1 with Kind := "PipelineRun", APIVersion := "tekton.dev/v1" }) ∧
        u.GetKind = "PipelineRun" ∧ u.GetAPIVersion = "tekton.dev/" ++ "v1") ∧
    ("v1" ≠ "v1" →
      ∃ u, sentObjects (pipelinerun.Create sampleDeps (sampleClients "v1" [] []) sampleInput {}
          "ci").calls = [u] ∧
        u = Unstructured.mk (sampleDeps.ToUnstructuredV1beta1 sampleInput) ∧
        u.GetKind = sampleInput.Kind ∧ u.GetAPIVersion = sampleInput.APIVersion) :=
  C5_sent_type_fields sampleDeps (sampleClients "v1" [] []) sampleInput {} "ci"
    { Group := "tekton.dev", Version := "v1", Resource := "pipelineruns" }
    sampleDeps_writesTypeFields rfl

/-- C6: when discovery answers `v1` and every step succeeds, `Create` converts
the input forward, sends the wire form of that `v1` conversion, converts the
parsed echo backward and returns it with apiVersion `"tekton.dev/v1beta1"` and
kind `"PipelineRun"`, whatever the echo carried; when discovery answers
`v1beta1`, no version conversion is among the calls and the result is the
echo of the input's own wire form parsed directly as `v1beta1`. -/
theorem C6_create_version_paths (d : Deps) (c : Clients) (pr : v1beta1.PipelineRun)
    (opts : CreateOptions) (ns : String) (gvr : GroupVersionResource)
    (hd : c.GetGroupVersionResource pipelinerun.pipelineRunGroupResource = .ok gvr) :
    (gvr.Version = "v1" → ∀ prv1 echo parsed back,
      d.ConvertTo pr = .ok prv1 →
      c.Create pipelinerun.pipelineRunGroupResource (Unstructured.mk (d.ToUnstructuredV1
        { prv1 with Kind := "PipelineRun", APIVersion := "tekton.dev/v1" })) ns opts = .ok echo →
      d.FromUnstructuredV1 echo.UnstructuredContent = .ok parsed →
      d.ConvertFrom parsed = .ok back →
      (pipelinerun.Create d c pr opts ns).calls =
        [Call.discovery pipelinerun.pipelineRunGroupResource,
         Call.convertTo pr,
         Call.create pipelinerun.pipelineRunGroupResource (Unstructured.mk (d.ToUnstructuredV1
           { prv1 with Kind := "PipelineRun", APIVersion := "tekton.dev/v1" })) ns opts,
         Call.convertFrom parsed] ∧
      (pipelinerun.Create d c pr opts ns).result =
        .ok { back with Kind := "PipelineRun", APIVersion := "tekton.dev/v1beta1" } ∧
      ∃ ret, (pipelinerun.Create d c pr opts ns).result = .ok ret ∧
        ret.APIVersion = "tekton.dev/v1beta1" ∧ ret.Kind = "PipelineRun") ∧
    (gvr.Version = "v1beta1" →
      (pipelinerun.Create d c pr opts ns).calls.all (fun call => !call.isConversion) = true ∧
      (pipelinerun.Create d c pr opts ns).result =
        (c.Create pipelinerun.pipelineRunGroupResource
          (Unstructured.mk (d.ToUnstructuredV1beta1 pr)) ns opts >>= fun echo =>
            d.FromUnstructuredV1beta1 echo.UnstructuredContent)) := by
  constructor
  · intro hv prv1 echo parsed back hto hc hp hb
    have hrun : pipelinerun.Create d c pr opts ns =
        ⟨[Call.discovery pipelinerun.pipelineRunGroupResource,
          Call.convertTo pr,
          Call.create pipelinerun.pipelineRunGroupResource (Unstructured.mk (d.ToUnstructuredV1
            { prv1 with Kind := "PipelineRun", APIVersion := "tekton.dev/v1" })) ns opts,
          Call.convertFrom parsed],
         .ok { back with Kind := "PipelineRun", APIVersion := "tekton.dev/v1beta1" }⟩ := by
      unfold pipelinerun.Create actions.GetGroupVersionResource actions.Create
        pipelinerun.ConvertTo pipelinerun.ConvertFrom
      simp only [Run.bind_eq, Run.pure_eq, hd, Run.bind_call_ok, hv, if_true, hto, hc, hp, hb]
      rfl
    rw [hrun]
    exact ⟨rfl, rfl, _, rfl, rfl, rfl⟩
  · intro hv
    have hne : gvr.Version ≠ "v1" := by
      rw [hv]
      decide
    obtain ⟨hcalls, hres⟩ := Create_other_run d c pr opts ns gvr hd hne
    refine ⟨?_, hres⟩
    rw [hcalls]
    rfl

/-- Witness of C6 on the sample cluster, serving `v1` and then `v1beta1`, for
a caller's execution without type fields. -/
theorem C6_create_version_paths_witness :
    ((pipelinerun.Create sampleDeps (sampleClients "v1" [] []) sampleInput {} "ci").result =
        .ok { Kind := "PipelineRun", APIVersion := "tekton.dev/v1beta1", Name := "r1",
              Namespace := "ci",
              Spec := [("pipelineRef", "build"), ("serviceAccountName", "builder")] } ∧
      (sentObjects (pipelinerun.Create sampleDeps (sampleClients "v1" [] []) sampleInput {}
        "ci").calls).map (fun u => (u.GetKind, u.GetAPIVersion)) =
        [("PipelineRun", "tekton.dev/v1")]) ∧
    ((pipelinerun.Create sampleDeps (sampleClients "v1beta1" [] []) sampleInput {}
        "ci").calls.all (fun call => !call.isConversion) = true ∧
      (pipelinerun.Create sampleDeps (sampleClients "v1beta1" [] []) sampleInput {} "ci").result =
        .ok sampleInput) :=
  ⟨⟨((C6_create_version_paths sampleDeps (sampleClients "v1" [] []) sampleInput {} "ci"
        { Group := "tekton.dev", Version := "v1", Resource := "pipelineruns" } rfl).1 rfl
        { Name := "r1", Namespace := "ci",
          Spec := [("pipelineRef", "build"), ("taskRunTemplate.serviceAccountName", "builder")] }
        (Unstructured.mk (sampleDeps.ToUnstructuredV1
          { Kind := "PipelineRun", APIVersion := "tekton.dev/v1", Name := "r1", Namespace := "ci",
            Spec := [("pipelineRef", "build"),
              ("taskRunTemplate.serviceAccountName", "builder")] }))
        { Kind := "PipelineRun", APIVersion := "tekton.dev/v1", Name := "r1", Namespace := "ci",
          Spec := [("pipelineRef", "build"), ("taskRunTemplate.serviceAccountName", "builder")] }
        { Name := "r1", Namespace := "ci",
          Spec := [("pipelineRef", "build"), ("serviceAccountName", "builder")] }
        rfl rfl rfl rfl).2.1, rfl⟩,
   ⟨((C6_create_version_paths sampleDeps (sampleClients "v1beta1" [] []) sampleInput {} "ci"
        { Group := "tekton.dev", Version := "v1beta1", Resource := "pipelineruns" } rfl).2 rfl).1,
    rfl⟩⟩

/-! ## Memory -/

/-- Allocation leaves every allocated cell as it is. -/
theorem Memory.read_alloc_old (m : Memory) (x : v1beta1.PipelineRun) (q : Addr)
    (hq : q < m.next) : (m.alloc x).read q = m.read q := by
  unfold Memory.alloc Memory.read
  exact List.getElem?_append_left hq

/-- The new cell holds the allocated value. -/
theorem Memory.read_alloc_new (m : Memory) (x : v1beta1.PipelineRun) :
    (m.alloc x).read m.next = some x := by
  unfold Memory.alloc Memory.read Memory.next
  exact List.getElem?_concat_length m.cells x

/-- The next free address is not allocated. -/
theorem Memory.read_next (m : Memory) : m.read m.next = none := by
  unfold Memory.read Memory.next
  simp

/-- An allocated address is below the next free address. -/
theorem Memory.lt_next_of_read (m : Memory) (q : Addr) (v : v1beta1.PipelineRun)
    (h : m.read q = some v) : q < m.next := by
  unfold Memory.read at h
  unfold Memory.next
  by_contra hge
  rw [List.getElem?_eq_none (Nat.le_of_not_lt hge)] at h
  cases h

/-- An assignment at an address changes the content of that cell as told. -/
theorem Memory.read_modify_same (m : Memory) (a : Addr)
    (f : v1beta1.PipelineRun → v1beta1.PipelineRun) (v : v1beta1.PipelineRun)
    (h : m.read a = some v) : (m.modify a f).read a = some (f v) := by
  unfold Memory.read at h
  have hlt : a < m.cells.length := by
    by_contra hge
    rw [List.getElem?_eq_none (Nat.le_of_not_lt hge)] at h
    cases h
  unfold Memory.modify Memory.read
  rw [h]
  simp [hlt]

/-- An assignment at an address leaves every other cell as it is. -/
theorem Memory.read_modify_other (m : Memory) (a q : Addr)
    (f : v1beta1.PipelineRun → v1beta1.PipelineRun) (h : q ≠ a) :
    (m.modify a f).read q = m.read q := by
  unfold Memory.modify Memory.read
  split
  · exact List.getElem?_set_ne (Ne.symm h)
  · rfl

/-! ## Get and enrichment -/

/-- The run of `populatePipelineRunTaskStatuses` on each answer of the status
gatherer: the memory it leaves, its calls and its result. -/
theorem populate_run (c : Clients) (ns : String) (pr : v1beta1.PipelineRun) (m : Memory) :
    pipelinerun.populatePipelineRunTaskStatuses c ns pr m =
      match c.GetFullPipelineTaskStatuses ns pr with
      | .error err =>
        (m.alloc pr,
          ⟨[Call.statuses ns pr,
            Call.stderr ("Failed to get TaskRun and Run statuses for PipelineRun " ++ pr.Name ++
              " from namespace " ++ ns ++ "\n")], .error err⟩)
      | .ok (taskRunMap, runMap) =>
        (((m.alloc pr).modify m.next
            fun v => { v with Status := { v.Status with TaskRuns := taskRunMap } }).modify m.next
            fun v => { v with Status := { v.Status with Runs := runMap } },
          ⟨[Call.statuses ns pr], .ok m.next⟩) := by
  unfold pipelinerun.populatePipelineRunTaskStatuses
  cases h : c.GetFullPipelineTaskStatuses ns pr with
  | error err => rfl
  | ok maps =>
    obtain ⟨taskRunMap, runMap⟩ := maps
    rfl

/-- C7, as stated, fails: the sample cluster serves `v1` and stores `r1` with
its service account in the `v1` place; the `v1` parse followed by
`ConvertFrom` keeps the service account, but the execution `Get` hands to
enrichment is the direct `v1beta1` parse, which has lost it. -/
theorem C7_get_conversion_counterexample :
    (sampleClients "v1" [] sampleStored).GetGroupVersionResource
        pipelinerun.pipelineRunGroupResource =
      .ok { Group := "tekton.dev", Version := "v1", Resource := "pipelineruns" } ∧
    (sampleDeps.FromUnstructuredV1 sampleStored >>= sampleDeps.ConvertFrom) =
      .ok { Name := "r1", Namespace := "ci", ResourceVersion := "7",
            Spec := [("pipelineRef", "build"), ("serviceAccountName", "builder")],
            Status := { StartTime := some 100 } } ∧
    enriched (pipelinerun.Get sampleDeps (sampleClients "v1" [] sampleStored) "r1" {} "ci"
        ⟨[]⟩).2.calls =
      [{ Kind := "PipelineRun", APIVersion := "tekton.dev/v1", Name := "r1", Namespace := "ci",
         ResourceVersion := "7", Spec := [("pipelineRef", "build")],
         Status := { StartTime := some 100 } }] ∧
    ({ Kind := "PipelineRun", APIVersion := "tekton.dev/v1", Name := "r1", Namespace := "ci",
       ResourceVersion := "7", Spec := [("pipelineRef", "build")],
       Status := { StartTime := some 100 } } : v1beta1.PipelineRun) ≠
      { Name := "r1", Namespace := "ci", ResourceVersion := "7",
        Spec := [("pipelineRef", "build"), ("serviceAccountName", "builder")],
        Status := { StartTime := some 100 } } :=
  ⟨rfl, rfl, rfl, by decide⟩

/-- C7, amended: whatever version is served, when the fetch succeeds and the
fetched object parses into the `v1beta1` shape, the one value `Get` hands to
enrichment is that direct `v1beta1` parse; `Get` itself makes no discovery call
and no version conversion, and its result and the memory it leaves are those
of the enrichment of that parse, run after the parse was allocated. -/
theorem C7_get_parses_v1beta1_directly (d : Deps) (c : Clients) (prname : String)
    (opts : GetOptions) (ns : String) (m : Memory) (u : Unstructured) (p : v1beta1.PipelineRun)
    (hget : c.Get pipelinerun.pipelineRunGroupResource prname ns opts = .ok u)
    (hparse : d.FromUnstructuredV1beta1 u.UnstructuredContent = .ok p) :
    enriched (pipelinerun.Get d c prname opts ns m).2.calls = [p] ∧
    (pipelinerun.Get d c prname opts ns m).2.calls.all (fun call => !call.isConversion) = true ∧
    (pipelinerun.Get d c prname opts ns m).2.calls.head? =
      some (Call.get pipelinerun.pipelineRunGroupResource prname ns opts) ∧
    (pipelinerun.Get d c prname opts ns m).2.result =
      (pipelinerun.populatePipelineRunTaskStatuses c ns p (m.alloc p)).2.result ∧
    (pipelinerun.Get d c prname opts ns m).1 =
      (pipelinerun.populatePipelineRunTaskStatuses c ns p (m.alloc p)).1 := by
  have hrun : pipelinerun.Get d c prname opts ns m =
      ((pipelinerun.populatePipelineRunTaskStatuses c ns p (m.alloc p)).1,
        ⟨Call.get pipelinerun.pipelineRunGroupResource prname ns opts ::
          (pipelinerun.populatePipelineRunTaskStatuses c ns p (m.alloc p)).2.calls,
         (pipelinerun.populatePipelineRunTaskStatuses c ns p (m.alloc p)).2.result⟩) := by
    unfold pipelinerun.Get
    simp only [hget, hparse]
  rw [hrun, populate_run]
  cases h : c.GetFullPipelineTaskStatuses ns p with
  | error err => exact ⟨rfl, rfl, rfl, rfl, rfl⟩
  | ok maps =>
    obtain ⟨taskRunMap, runMap⟩ := maps
    exact ⟨rfl, rfl, rfl, rfl, rfl⟩

/-- Witness of the amended C7 on the sample cluster serving `v1`. -/
theorem C7_get_parses_v1beta1_directly_witness :
    enriched (pipelinerun.Get sampleDeps (sampleClients "v1" [] sampleStored) "r1" {} "ci"
        ⟨[]⟩).2.calls =
      [{ Kind := "PipelineRun", APIVersion := "tekton.dev/v1", Name := "r1", Namespace := "ci",
         ResourceVersion := "7", Spec := [("pipelineRef", "build")],
         Status := { StartTime := some 100 } }] :=
  (C7_get_parses_v1beta1_directly sampleDeps (sampleClients "v1" [] sampleStored) "r1" {} "ci"
    ⟨[]⟩ { Object := sampleStored }
    { Kind := "PipelineRun", APIVersion := "tekton.dev/v1", Name := "r1", Namespace := "ci",
      ResourceVersion := "7", Spec := [("pipelineRef", "build")],
      Status := { StartTime := some 100 } } rfl rfl).1

/-- C8: the caller's execution `pr` lives at the address `p` of the memory `m`
and is passed by value. When status gathering succeeds with the maps
`(taskRunMap, runMap)`, `populatePipelineRunTaskStatuses` returns an address
that was not allocated before, so not `p`, and the execution at that address
has `Status.TaskRuns = taskRunMap`, `Status.Runs = runMap` and every other
field that of `pr`; when gathering fails with `e` it returns exactly `e`. In
both cases the cell at `p` still holds `pr` after the call, as every cell
allocated before the call holds what it held, and the gatherer was handed
`pr`. -/
theorem C8_populate_frame (c : Clients) (ns : String) (m : Memory) (p : Addr)
    (pr : v1beta1.PipelineRun) (hp : m.read p = some pr) :
    (∀ taskRunMap runMap, c.GetFullPipelineTaskStatuses ns pr = .ok (taskRunMap, runMap) →
      ∃ a ret, (pipelinerun.populatePipelineRunTaskStatuses c ns pr m).2.result = .ok a ∧
        a ≠ p ∧ m.read a = none ∧
        (pipelinerun.populatePipelineRunTaskStatuses c ns pr m).1.read a = some ret ∧
        ret = { pr with Status := { pr.Status with TaskRuns := taskRunMap, Runs := runMap } } ∧
        ret.Status.TaskRuns = taskRunMap ∧ ret.Status.Runs = runMap ∧
        ret.toTypeMeta = pr.toTypeMeta ∧ ret.toObjectMeta = pr.toObjectMeta ∧
        ret.Spec = pr.Spec ∧ ret.Status.StartTime = pr.Status.StartTime ∧
        ret.Status.Other = pr.Status.Other ∧
        (pipelinerun.populatePipelineRunTaskStatuses c ns pr m).1.read p = some pr ∧
        (∀ q, q < m.next →
          (pipelinerun.populatePipelineRunTaskStatuses c ns pr m).1.read q = m.read q) ∧
        enriched (pipelinerun.populatePipelineRunTaskStatuses c ns pr m).2.calls = [pr]) ∧
    (∀ e, c.GetFullPipelineTaskStatuses ns pr = .error e →
      (pipelinerun.populatePipelineRunTaskStatuses c ns pr m).2.result = .error e ∧
      (pipelinerun.populatePipelineRunTaskStatuses c ns pr m).1.read p = some pr ∧
      (∀ q, q < m.next →
        (pipelinerun.populatePipelineRunTaskStatuses c ns pr m).1.read q = m.read q) ∧
      enriched (pipelinerun.populatePipelineRunTaskStatuses c ns pr m).2.calls = [pr]) := by
  have hlt : p < m.next := Memory.lt_next_of_read m p pr hp
  constructor
  · intro taskRunMap runMap h
    rw [populate_run, h]
    have hold : ∀ q, q < m.next →
        (((m.alloc pr).modify m.next
          fun v => { v with Status := { v.Status with TaskRuns := taskRunMap } }).modify m.next
          fun v => { v with Status := { v.Status with Runs := runMap } }).read q = m.read q := by
      intro q hq
      have hne : q ≠ m.next := Nat.ne_of_lt hq
      rw [Memory.read_modify_other _ _ _ _ hne, Memory.read_modify_other _ _ _ _ hne,
        Memory.read_alloc_old m pr q hq]
    have hnew : (((m.alloc pr).modify m.next
          fun v => { v with Status := { v.Status with TaskRuns := taskRunMap } }).modify m.next
          fun v => { v with Status := { v.Status with Runs := runMap } }).read m.next =
        some { pr with Status := { pr.Status with TaskRuns := taskRunMap, Runs := runMap } } := by
      rw [Memory.read_modify_same _ _ _ _
        (Memory.read_modify_same _ _ _ _ (Memory.read_alloc_new m pr))]
    refine ⟨m.next, _, rfl, (Nat.ne_of_lt hlt).symm, Memory.read_next m, hnew, rfl, rfl, rfl,
      rfl, rfl, rfl, rfl, rfl, ?_, hold, rfl⟩
    rw [hold p hlt, hp]
  · intro e h
    rw [populate_run, h]
    refine ⟨rfl, ?_, fun q hq => Memory.read_alloc_old m pr q hq, rfl⟩
    show (m.alloc pr).read p = some pr
    rw [Memory.read_alloc_old m pr p hlt, hp]

/-- Witness of C8 on the sample cluster, which reports one child task: the
caller's execution is the one cell of the memory, at address 0, and the
result is the new cell at address 1. -/
theorem C8_populate_frame_witness :
    ∃ a ret, (pipelinerun.populatePipelineRunTaskStatuses (sampleClients "v1" [] []) "ci"
        sampleInput ⟨[sampleInput]⟩).2.result = .ok a ∧
      a ≠ 0 ∧ (Memory.mk [sampleInput]).read a = none ∧
      (pipelinerun.populatePipelineRunTaskStatuses (sampleClients "v1" [] []) "ci"
        sampleInput ⟨[sampleInput]⟩).1.read a = some ret ∧
      ret = { sampleInput with Status := { sampleInput.Status with
        TaskRuns := [("r1-build", [("podName", "r1-build-pod")])], Runs := [] } } ∧
      ret.Status.TaskRuns = [("r1-build", [("podName", "r1-build-pod")])] ∧
      ret.Status.Runs = [] ∧
      ret.toTypeMeta = sampleInput.toTypeMeta ∧ ret.toObjectMeta = sampleInput.toObjectMeta ∧
      ret.Spec = sampleInput.Spec ∧ ret.Status.StartTime = sampleInput.Status.StartTime ∧
      ret.Status.Other = sampleInput.Status.Other ∧
      (pipelinerun.populatePipelineRunTaskStatuses (sampleClients "v1" [] []) "ci"
        sampleInput ⟨[sampleInput]⟩).1.read 0 = some sampleInput ∧
      (∀ q, q < (Memory.mk [sampleInput]).next →
        (pipelinerun.populatePipelineRunTaskStatuses (sampleClients "v1" [] []) "ci"
          sampleInput ⟨[sampleInput]⟩).1.read q = (Memory.mk [sampleInput]).read q) ∧
      enriched (pipelinerun.populatePipelineRunTaskStatuses (sampleClients "v1" [] []) "ci"
        sampleInput ⟨[sampleInput]⟩).2.calls = [sampleInput] :=
  (C8_populate_frame (sampleClients "v1" [] []) "ci" ⟨[sampleInput]⟩ 0 sampleInput rfl).1
    [("r1-build", [("podName", "r1-build-pod")])] [] rfl

/-! ## The name step of the create verb -/

/-- C10, as stated, fails: in the sample session the entered name
`existing-git` exists, and the error `AskMeta` returns has the message
`"resource already exist"`, which is not `"resource already exists"`. -/
theorem C10_already_exists_message_counterexample :
    (pipelineresource.AskMeta 0 (sampleResource "existing-git")).2 =
      some (error.errorString 0 "resource already exist") ∧
    (error.errorString 0 "resource already exist").Error ≠ "resource already exists" :=
  ⟨rfl, by decide⟩

/-- C10, amended: when the prompt answers a name, the clients are available and
the lookup of that name in the namespace succeeds, `AskMeta` returns an error
whose message is exactly `"resource already exist"`, and the resource being
built is left as it was, so the name is not recorded on it. -/
theorem C10_already_exist_message (alloc : Addr) (res : pipelineresource.Resource)
    (answer : String) (rc : pipelineresource.ResourceClients)
    (found : v1alpha1.PipelineResource)
    (hask : survey.Ask
      [{ Name := "resource name", Message := "Enter a name for a pipeline resource :",
         Required := true }] res.AskOpts = .ok answer)
    (hclients : res.Params.Clients = .ok rc)
    (hfound : rc.GetPipelineResource res.Params.Namespace answer {} = .ok found) :
    (∃ err, (pipelineresource.AskMeta alloc res).2 = some err ∧
      err.Error = "resource already exist") ∧
    (pipelineresource.AskMeta alloc res).1.PipelineResource = res.PipelineResource ∧
    (pipelineresource.AskMeta alloc res).1.PipelineResource.Name =
      res.PipelineResource.Name := by
  have hrun : pipelineresource.AskMeta alloc res =
      (res, some (errors.New alloc "resource already exist")) := by
    unfold pipelineresource.AskMeta pipelineresource.validate
    simp only [hask, hclients, hfound]
  rw [hrun]
  exact ⟨⟨_, rfl, rfl⟩, rfl, rfl⟩

/-- Witness of the amended C10 in the sample session. -/
theorem C10_already_exist_message_witness :
    (∃ err, (pipelineresource.AskMeta 0 (sampleResource "existing-git")).2 = some err ∧
      err.Error = "resource already exist") ∧
    (pipelineresource.AskMeta 0 (sampleResource "existing-git")).1.PipelineResource =
      (sampleResource "existing-git").PipelineResource ∧
    (pipelineresource.AskMeta 0 (sampleResource "existing-git")).1.PipelineResource.Name =
      (sampleResource "existing-git").PipelineResource.Name :=
  C10_already_exist_message 0 (sampleResource "existing-git") "existing-git"
    { GetPipelineResource := fun ns name _ =>
        if ns = "ci" ∧ name = "existing-git" then .ok { Name := name, Namespace := ns }
        else .error (.status "NotFound" ("pipelineresources.tekton.dev \"" ++ name ++
          "\" not found")) }
    { Name := "existing-git", Namespace := "ci" } rfl rfl rfl

